import Mathlib

/-!
Verification of the SO100 direct joint-control console
(`src/so100_direct_controller.py`, function `main`).

The console keeps an in-memory cache of joint positions, a selected joint
and a step size, and dispatches single-line operator commands.  We embed
the loop body shallowly:

* positions are modelled as rationals (the script manipulates Python
  floats only by `+`/`-` of operator-supplied decimals, so exact
  arithmetic is faithful for every property stated here);
* the motor bus is an environment: whether `write` succeeds, and what
  each `read` returns (a numeric scalar, a numpy array of a given size,
  or an exception);
* each branch of the `while` loop becomes a pure function from the
  console state to a result carrying the new state, the list of
  `Goal_Position` writes issued to the bus, the diagnostic messages
  printed (informational prints that carry numbers are represented by
  fixed prefixes without the formatted number), and a quit flag.

The input line is taken after Python's `.strip().lower()` normalisation.
-/

namespace SO100

/-- The fixed joint ordering, `joint_names` in the script. -/
def joint_names : List String :=
  ["shoulder_pan", "shoulder_lift", "elbow_flex", "wrist_flex", "wrist_roll", "gripper"]

/-- What a single `motor_bus.read("Present_Position", joint)` call can produce:
a numeric scalar (`float(pos)` succeeds), a numpy array with the given list of
entries, or a raised exception. -/
inductive ReadResult where
  | scalar (v : ℚ)
  | array (vs : List ℚ)
  | err
deriving DecidableEq, Repr

/-- The normalisation block the script applies to every read result
(lines 52–58, 119–125, 145–151, 177–183):
`isinstance(pos, np.ndarray)` → if `pos.size > 0` then `float(pos.item())`
else `0.0`; otherwise `float(pos)`.  `none` means the read (or `pos.item()`
on an array of size > 1, or `float` on the scalar) raised. -/
def processRead : ReadResult → Option ℚ
  | .scalar v => some v
  | .array [] => some 0
  | .array [v] => some v
  | .array (_ :: _ :: _) => none
  | .err => none

/-- The motor-bus environment for one command: whether
`motor_bus.write` succeeds, and what `motor_bus.read` returns per joint. -/
structure Env where
  writeOk : Bool
  readRes : String → ReadResult

/-- `ConsoleState`: the mutable state of the command loop —
the selected joint name, the step size, and the position cache
(`joint_positions`, a dict keyed by the six joint names). -/
structure ConsoleState where
  selected_joint : String
  step_size : ℚ
  joint_positions : String → ℚ

/-- Pointwise update of the position cache: `joint_positions[k] = v`. -/
def updatePos (p : String → ℚ) (k : String) (v : ℚ) : String → ℚ :=
  fun n => if n = k then v else p n

/-- One `motor_bus.write("Goal_Position", value, joint)` call. -/
structure WriteEvent where
  register : String
  value : ℚ
  joint : String
deriving DecidableEq, Repr

/-- Result of executing one loop iteration's command branch. -/
structure CmdResult where
  state : ConsoleState
  writes : List WriteEvent
  msgs : List String
  quit : Bool

/-- Helper for `pySplit`: walk the characters, `acc` holding the current
token reversed. -/
def pySplitAux : List Char → List Char → List String
  | [], acc => if acc = [] then [] else [String.mk acc.reverse]
  | c :: rest, acc =>
      if c.isWhitespace then
        if acc = [] then pySplitAux rest []
        else String.mk acc.reverse :: pySplitAux rest []
      else pySplitAux rest (c :: acc)

/-- Python `str.split()` with no argument: split on runs of whitespace,
discarding empty pieces. -/
def pySplit (s : String) : List String :=
  pySplitAux s.data []

/-- Python `str.startswith(c)` for a single-character needle: the string is
nonempty and its first character is `c`. -/
def pyStartsWith (s : String) (c : Char) : Bool :=
  match s.data with
  | [] => false
  | c0 :: _ => c0 = c

/-- Digit run to its numeric value (the run is already checked by `allDigits`). -/
def digitsNat (cs : List Char) : Nat :=
  cs.foldl (fun a c => 10 * a + (c.toNat - 48)) 0

/-- All characters are decimal digits. -/
def allDigits (cs : List Char) : Bool :=
  cs.all Char.isDigit

/-- Python `int(s)` for the strings this script can meet: an optional sign
followed by a nonempty digit run; anything else raises `ValueError` (`none`).
(Underscore separators and surrounding whitespace — already stripped by the
console — are not modelled.) -/
def parseInt (s : String) : Option Int :=
  let body : List Char → Option Int := fun cs =>
    if cs ≠ [] ∧ allDigits cs then some (digitsNat cs : Int) else none
  match s.data with
  | '-' :: rest => (body rest).map (fun n => -n)
  | '+' :: rest => body rest
  | cs => body cs

/-- Python `float(s)` restricted to plain decimal literals: an optional sign,
then digits with an optional fractional part, at least one digit in all
(`"5."`, `".5"` included); exponent, `inf` and `nan` forms are not modelled.
Anything else raises `ValueError` (`none`). -/
def parseFloat (s : String) : Option ℚ :=
  let body : List Char → Option ℚ := fun cs =>
    let ip := cs.takeWhile (fun c => c ≠ '.')
    match cs.dropWhile (fun c => c ≠ '.') with
    | [] =>
        if cs ≠ [] ∧ allDigits cs then some (digitsNat cs : ℚ) else none
    | _ :: fp =>
        if (ip ++ fp) ≠ [] ∧ allDigits ip ∧ allDigits fp then
          some ((digitsNat ip : ℚ) + (digitsNat fp : ℚ) / (10 : ℚ) ^ fp.length)
        else none
  match s.data with
  | '-' :: rest => (body rest).map (fun q => -q)
  | '+' :: rest => body rest
  | cs => body cs

/-- Body of the `j` command once an argument token is present
(lines 94–99 plus the surrounding `try`/`except ValueError`):
`idx = int(parts[1]) - 1`; in-range selects `joint_names[idx]`,
out-of-range and unparsable arguments leave the state unchanged. -/
def jointSelect (arg : String) (st : ConsoleState) : CmdResult :=
  match parseInt arg with
  | some n =>
      let idx : Int := n - 1
      if 0 ≤ idx ∧ idx < 6 then
        { state := { st with selected_joint := joint_names.getD idx.toNat "" },
          writes := [], msgs := ["Selected joint"], quit := false }
      else
        { state := st, writes := [],
          msgs := ["Invalid joint number. Use 1-6"], quit := false }
  | none =>
      { state := st, writes := [],
        msgs := ["Invalid joint number format"], quit := false }

/-- The `elif cmd.startswith('j')` branch (lines 90–103): select a joint by
1-indexed number; out-of-range, malformed or missing argument leaves the
state unchanged with a message. -/
def jointCmd (cmd : String) (st : ConsoleState) : CmdResult :=
  match pySplit cmd with
  | _ :: arg :: _ => jointSelect arg st
  | _ =>
      { state := st, writes := [], msgs := ["Usage: j NUMBER"], quit := false }

/-- Body of the `s` command once an argument token is present
(lines 161–166 plus the surrounding `try`/`except ValueError`):
`new_step = float(parts[1])`; positive values are stored, non-positive and
unparsable arguments leave the state unchanged. -/
def stepSet (arg : String) (st : ConsoleState) : CmdResult :=
  match parseFloat arg with
  | some f =>
      if 0 < f then
        { state := { st with step_size := f },
          writes := [], msgs := ["Step size set to"], quit := false }
      else
        { state := st, writes := [],
          msgs := ["Step size must be positive"], quit := false }
  | none =>
      { state := st, writes := [],
        msgs := ["Invalid step size format"], quit := false }

/-- The `elif cmd.startswith('s')` branch (lines 157–170): set the step size
to a positive float; non-positive, malformed or missing argument leaves the
state unchanged with a message. -/
def stepCmd (cmd : String) (st : ConsoleState) : CmdResult :=
  match pySplit cmd with
  | _ :: arg :: _ => stepSet arg st
  | _ =>
      { state := st, writes := [], msgs := ["Usage: s NUMBER"], quit := false }

/-- The `+` / `-` branches (lines 105–155, identical except for the sign):
write `Goal_Position = current ± step_size` for the selected joint, then
read back `Present_Position` and store the normalised value; any raised
exception is caught (`except Exception`) and only logged. -/
def moveCmd (env : Env) (plus : Bool) (st : ConsoleState) : CmdResult :=
  let current := st.joint_positions st.selected_joint
  let target := if plus then current + st.step_size else current - st.step_size
  let ws := [WriteEvent.mk "Goal_Position" target st.selected_joint]
  if env.writeOk then
    match processRead (env.readRes st.selected_joint) with
    | some v =>
        { state := { st with
            joint_positions := updatePos st.joint_positions st.selected_joint v },
          writes := ws,
          msgs := ["Moving", "Command sent. Waiting...", "New position"],
          quit := false }
    | none =>
        { state := st, writes := ws,
          msgs := ["Moving", "Command sent. Waiting...", "Error"], quit := false }
  else
    { state := st, writes := ws, msgs := ["Moving", "Error"], quit := false }

/-- The body of the `r` command's `for joint in joint_names` loop
(lines 174–186): read each joint in order; a successful read overwrites the
cache entry, a raised exception is caught, logged, and — unlike the startup
loop — leaves the cache entry as it was.  Returns the final cache and the
per-joint messages in order. -/
def readLoop (env : Env) : List String → (String → ℚ) → ((String → ℚ) × List String)
  | [], pos => (pos, [])
  | j :: rest, pos =>
      match processRead (env.readRes j) with
      | some v =>
          let r := readLoop env rest (updatePos pos j v)
          (r.1, (j ++ ": read") :: r.2)
      | none =>
          let r := readLoop env rest pos
          (r.1, ("Error reading " ++ j) :: r.2)

/-- The `elif cmd == 'r'` branch (lines 172–186). -/
def readAllCmd (env : Env) (st : ConsoleState) : CmdResult :=
  let r := readLoop env joint_names st.joint_positions
  { state := { st with joint_positions := r.1 },
    writes := [], msgs := "Reading all positions..." :: r.2, quit := false }

/-- One iteration of the command loop, dispatching exactly as the
`if`/`elif` chain of lines 87–189 does, on the stripped, lowercased line. -/
def execCommand (env : Env) (cmd : String) (st : ConsoleState) : CmdResult :=
  if cmd = "q" then
    { state := st, writes := [], msgs := [], quit := true }
  else if pyStartsWith cmd 'j' then
    jointCmd cmd st
  else if cmd = "+" then
    moveCmd env true st
  else if cmd = "-" then
    moveCmd env false st
  else if pyStartsWith cmd 's' then
    stepCmd cmd st
  else if cmd = "r" then
    readAllCmd env st
  else
    { state := st, writes := [], msgs := ["Unknown command"], quit := false }

/-- The startup read loop (lines 49–62): for each joint in the fixed order,
attempt a read; a raised exception is caught, logged, and that joint's
cache entry defaults to `0.0`.  Returns the cache, the per-joint messages,
and the trace of joints for which a read was attempted, in order. -/
def startupLoop (env : Env) :
    List String → (String → ℚ) → ((String → ℚ) × List String × List String)
  | [], pos => (pos, [], [])
  | j :: rest, pos =>
      match processRead (env.readRes j) with
      | some v =>
          let r := startupLoop env rest (updatePos pos j v)
          (r.1, (j ++ ": read") :: r.2.1, j :: r.2.2)
      | none =>
          let r := startupLoop env rest (updatePos pos j 0)
          (r.1, ("Error reading " ++ j) :: r.2.1, j :: r.2.2)

/-- The seeded position cache after startup (the Python dict starts empty;
every joint name is assigned by the loop, so the base function is irrelevant
and taken to be `0`). -/
def startupRead (env : Env) : (String → ℚ) × List String × List String :=
  startupLoop env joint_names (fun _ => 0)

/-- The console state entering the command loop (lines 64–66):
`step_size = 300.0`, `selected_joint = joint_names[0]`, cache seeded by the
startup read. -/
def initialState (env : Env) : ConsoleState :=
  { selected_joint := joint_names.getD 0 ""
    step_size := 300
    joint_positions := (startupRead env).1 }

/-- How the command loop was left: `break` on `q`, `KeyboardInterrupt`,
or an unhandled exception propagating out of the loop body. -/
inductive LoopExit where
  | quit
  | interrupt
  | exn
deriving DecidableEq, Repr

/-- The adapter connection as seen by the shutdown code: just `is_connected`. -/
structure RobotConn where
  is_connected : Bool
deriving DecidableEq, Repr

/-- The `finally` block (lines 194–199): disconnect iff currently connected.
Returns the connection state afterwards and the number of `disconnect`
calls made. -/
def finallyBlock (r : RobotConn) : RobotConn × Nat :=
  if r.is_connected then ({ is_connected := false }, 1) else (r, 0)

/-- The `try`/`except KeyboardInterrupt`/`finally` epilogue of `main`
(lines 191–199): the `except` clause only prints on interrupt, an unhandled
exception is re-raised after the `finally`, and the `finally` block runs on
every exit path. -/
def programShutdown (r : RobotConn) (_e : LoopExit) : RobotConn × Nat :=
  finallyBlock r

/-- A concrete quiet environment used by witnesses: writes succeed and every
read returns the scalar `0`. -/
def envDefault : Env := ⟨true, fun _ => .scalar 0⟩

/-- A concrete console state used by witnesses. -/
def stDefault : ConsoleState :=
  { selected_joint := "shoulder_pan", step_size := 300, joint_positions := fun _ => 0 }

/-- The spec's scenario environment: writes succeed, every read comes back
as the scalar `395.0`. -/
def scenarioEnv : Env := ⟨true, fun _ => .scalar 395⟩

/-- The spec's scenario state: six joints, cache `{shoulder_pan: 100.0,
others: 0.0}`, `selected = shoulder_pan`, `step_size = 300.0`. -/
def scenarioState : ConsoleState :=
  { selected_joint := "shoulder_pan", step_size := 300,
    joint_positions := updatePos (fun _ => 0) "shoulder_pan" 100 }

/-- Environment in which the read for `shoulder_pan` raises and every other
read returns the scalar `7`. -/
def envPanFails : Env :=
  ⟨true, fun j => if j = "shoulder_pan" then .err else .scalar 7⟩

/-- Environment in which every read raises. -/
def envAllFail : Env := ⟨true, fun _ => .err⟩

end SO100

namespace SO100

lemma joint_names_nodup : joint_names.Nodup := by decide

lemma getD_joint_mem (k : Nat) (hk : k < 6) : joint_names.getD k "" ∈ joint_names := by
  interval_cases k <;> decide

lemma ne_of_startsWith {cmd : String} {c : Char} (h : pyStartsWith cmd c = true)
    (t : String) (ht : pyStartsWith t c = false) : cmd ≠ t := by
  rintro rfl
  rw [h] at ht
  cases ht

lemma startsWith_unique {cmd : String} {c c' : Char} (h : pyStartsWith cmd c = true)
    (hne : c' ≠ c) : pyStartsWith cmd c' = false := by
  unfold pyStartsWith at h ⊢
  revert h
  cases cmd.data with
  | nil => intro h; exact absurd h (by simp)
  | cons c0 cs =>
      intro h
      simp only [decide_eq_true_eq] at h
      subst h
      exact decide_eq_false fun hcc => hne hcc.symm

lemma execCommand_quit (env : Env) (st : ConsoleState) :
    execCommand env "q" st = ⟨st, [], [], true⟩ := rfl

lemma execCommand_plus (env : Env) (st : ConsoleState) :
    execCommand env "+" st = moveCmd env true st := rfl

lemma execCommand_minus (env : Env) (st : ConsoleState) :
    execCommand env "-" st = moveCmd env false st := rfl

lemma execCommand_readAll (env : Env) (st : ConsoleState) :
    execCommand env "r" st = readAllCmd env st := rfl

lemma execCommand_j (env : Env) (cmd : String) (st : ConsoleState)
    (hj : pyStartsWith cmd 'j' = true) :
    execCommand env cmd st = jointCmd cmd st := by
  have hq : cmd ≠ "q" := ne_of_startsWith hj "q" (by decide)
  unfold execCommand
  rw [if_neg hq, if_pos hj]

lemma execCommand_s (env : Env) (cmd : String) (st : ConsoleState)
    (hs : pyStartsWith cmd 's' = true) :
    execCommand env cmd st = stepCmd cmd st := by
  have hq : cmd ≠ "q" := ne_of_startsWith hs "q" (by decide)
  have hp : cmd ≠ "+" := ne_of_startsWith hs "+" (by decide)
  have hm : cmd ≠ "-" := ne_of_startsWith hs "-" (by decide)
  have hj : pyStartsWith cmd 'j' = false := startsWith_unique hs (by decide)
  unfold execCommand
  rw [if_neg hq, if_neg (by simp [hj]), if_neg hp, if_neg hm, if_pos hs]

lemma moveCmd_writes (env : Env) (b : Bool) (st : ConsoleState) :
    (moveCmd env b st).writes =
      [⟨"Goal_Position",
        if b then st.joint_positions st.selected_joint + st.step_size
        else st.joint_positions st.selected_joint - st.step_size,
        st.selected_joint⟩] := by
  unfold moveCmd
  cases env.writeOk
  · simp
  · cases processRead (env.readRes st.selected_joint) <;> simp

lemma moveCmd_frame (env : Env) (b : Bool) (st : ConsoleState) :
    (moveCmd env b st).state.selected_joint = st.selected_joint ∧
    (moveCmd env b st).state.step_size = st.step_size ∧
    (moveCmd env b st).quit = false ∧
    ∀ j, j ≠ st.selected_joint →
      (moveCmd env b st).state.joint_positions j = st.joint_positions j := by
  unfold moveCmd
  cases env.writeOk
  · simp
  · cases processRead (env.readRes st.selected_joint) with
    | none => simp
    | some v =>
        refine ⟨rfl, rfl, rfl, fun j hj => ?_⟩
        show updatePos st.joint_positions st.selected_joint v j = st.joint_positions j
        unfold updatePos
        rw [if_neg hj]

lemma moveCmd_readback (env : Env) (b : Bool) (st : ConsoleState) (v : ℚ)
    (hw : env.writeOk = true)
    (hr : processRead (env.readRes st.selected_joint) = some v) :
    (moveCmd env b st).state.joint_positions st.selected_joint = v := by
  unfold moveCmd
  rw [hw]
  simp only [if_true]
  rw [hr]
  show updatePos st.joint_positions st.selected_joint v st.selected_joint = v
  unfold updatePos
  rw [if_pos rfl]

end SO100

namespace SO100

lemma readLoop_pos_notMem (env : Env) (js : List String) (pos : String → ℚ)
    (j : String) (hj : j ∉ js) : (readLoop env js pos).1 j = pos j := by
  induction js generalizing pos with
  | nil => rfl
  | cons a rest ih =>
      rw [List.mem_cons, not_or] at hj
      unfold readLoop
      cases processRead (env.readRes a) with
      | none => exact ih pos hj.2
      | some v =>
          show (readLoop env rest (updatePos pos a v)).1 j = pos j
          rw [ih _ hj.2]
          unfold updatePos
          rw [if_neg hj.1]

lemma readLoop_pos_mem (env : Env) (js : List String) (pos : String → ℚ)
    (j : String) (hj : j ∈ js) (hnd : js.Nodup) :
    (readLoop env js pos).1 j =
      (match processRead (env.readRes j) with
       | some v => v
       | none => pos j) := by
  induction js generalizing pos with
  | nil => cases hj
  | cons a rest ih =>
      rw [List.nodup_cons] at hnd
      rcases List.mem_cons.mp hj with rfl | hmem
      · unfold readLoop
        cases hr : processRead (env.readRes j) with
        | some v =>
            show (readLoop env rest (updatePos pos j v)).1 j = v
            rw [readLoop_pos_notMem env rest _ j hnd.1]
            unfold updatePos
            rw [if_pos rfl]
        | none =>
            exact readLoop_pos_notMem env rest pos j hnd.1
      · have hja : j ≠ a := fun h => hnd.1 (h ▸ hmem)
        unfold readLoop
        cases processRead (env.readRes a) with
        | some v =>
            show (readLoop env rest (updatePos pos a v)).1 j = _
            rw [ih _ hmem hnd.2]
            cases processRead (env.readRes j) with
            | some v' => rfl
            | none =>
                show updatePos pos a v j = pos j
                unfold updatePos
                rw [if_neg hja]
        | none => exact ih _ hmem hnd.2

lemma startupLoop_pos_notMem (env : Env) (js : List String) (pos : String → ℚ)
    (j : String) (hj : j ∉ js) : (startupLoop env js pos).1 j = pos j := by
  induction js generalizing pos with
  | nil => rfl
  | cons a rest ih =>
      rw [List.mem_cons, not_or] at hj
      unfold startupLoop
      cases processRead (env.readRes a) with
      | none =>
          show (startupLoop env rest (updatePos pos a 0)).1 j = pos j
          rw [ih _ hj.2]
          unfold updatePos
          rw [if_neg hj.1]
      | some v =>
          show (startupLoop env rest (updatePos pos a v)).1 j = pos j
          rw [ih _ hj.2]
          unfold updatePos
          rw [if_neg hj.1]

lemma startupLoop_pos_mem (env : Env) (js : List String) (pos : String → ℚ)
    (j : String) (hj : j ∈ js) (hnd : js.Nodup) :
    (startupLoop env js pos).1 j =
      (match processRead (env.readRes j) with
       | some v => v
       | none => 0) := by
  induction js generalizing pos with
  | nil => cases hj
  | cons a rest ih =>
      rw [List.nodup_cons] at hnd
      rcases List.mem_cons.mp hj with rfl | hmem
      · unfold startupLoop
        cases hr : processRead (env.readRes j) with
        | some v =>
            show (startupLoop env rest (updatePos pos j v)).1 j = v
            rw [startupLoop_pos_notMem env rest _ j hnd.1]
            unfold updatePos
            rw [if_pos rfl]
        | none =>
            show (startupLoop env rest (updatePos pos j 0)).1 j = 0
            rw [startupLoop_pos_notMem env rest _ j hnd.1]
            unfold updatePos
            rw [if_pos rfl]
      · unfold startupLoop
        cases processRead (env.readRes a) with
        | some v => exact ih _ hmem hnd.2
        | none => exact ih _ hmem hnd.2

lemma startupLoop_trace (env : Env) (js : List String) (pos : String → ℚ) :
    (startupLoop env js pos).2.2 = js := by
  induction js generalizing pos with
  | nil => rfl
  | cons a rest ih =>
      unfold startupLoop
      cases processRead (env.readRes a) with
      | some v => show a :: (startupLoop env rest _).2.2 = a :: rest; rw [ih]
      | none => show a :: (startupLoop env rest _).2.2 = a :: rest; rw [ih]

lemma jointSelect_inv (arg : String) (st : ConsoleState) (h1 : 0 < st.step_size)
    (h2 : st.selected_joint ∈ joint_names) :
    0 < (jointSelect arg st).state.step_size ∧
    (jointSelect arg st).state.selected_joint ∈ joint_names := by
  unfold jointSelect
  split
  · dsimp only
    split
    · next hidx => exact ⟨h1, getD_joint_mem _ (by omega)⟩
    · exact ⟨h1, h2⟩
  · exact ⟨h1, h2⟩

lemma jointCmd_inv (cmd : String) (st : ConsoleState) (h1 : 0 < st.step_size)
    (h2 : st.selected_joint ∈ joint_names) :
    0 < (jointCmd cmd st).state.step_size ∧
    (jointCmd cmd st).state.selected_joint ∈ joint_names := by
  unfold jointCmd
  split
  · exact jointSelect_inv _ st h1 h2
  · exact ⟨h1, h2⟩

lemma stepSet_inv (arg : String) (st : ConsoleState) (h1 : 0 < st.step_size)
    (h2 : st.selected_joint ∈ joint_names) :
    0 < (stepSet arg st).state.step_size ∧
    (stepSet arg st).state.selected_joint ∈ joint_names := by
  unfold stepSet
  split
  · split
    · next hf => exact ⟨hf, h2⟩
    · exact ⟨h1, h2⟩
  · exact ⟨h1, h2⟩

lemma stepCmd_inv (cmd : String) (st : ConsoleState) (h1 : 0 < st.step_size)
    (h2 : st.selected_joint ∈ joint_names) :
    0 < (stepCmd cmd st).state.step_size ∧
    (stepCmd cmd st).state.selected_joint ∈ joint_names := by
  unfold stepCmd
  split
  · exact stepSet_inv _ st h1 h2
  · exact ⟨h1, h2⟩

lemma jointCmd_split (cmd t0 arg : String) (rest : List String) (st : ConsoleState)
    (hsp : pySplit cmd = t0 :: arg :: rest) :
    jointCmd cmd st = jointSelect arg st := by
  unfold jointCmd
  rw [hsp]

lemma jointCmd_usage (cmd t0 : String) (st : ConsoleState)
    (hsp : pySplit cmd = [t0]) :
    jointCmd cmd st = ⟨st, [], ["Usage: j NUMBER"], false⟩ := by
  unfold jointCmd
  rw [hsp]

lemma stepCmd_split (cmd t0 arg : String) (rest : List String) (st : ConsoleState)
    (hsp : pySplit cmd = t0 :: arg :: rest) :
    stepCmd cmd st = stepSet arg st := by
  unfold stepCmd
  rw [hsp]

lemma stepCmd_usage (cmd t0 : String) (st : ConsoleState)
    (hsp : pySplit cmd = [t0]) :
    stepCmd cmd st = ⟨st, [], ["Usage: s NUMBER"], false⟩ := by
  unfold stepCmd
  rw [hsp]

lemma jointSelect_some (arg : String) (st : ConsoleState) (n : Int)
    (hn : parseInt arg = some n) :
    jointSelect arg st =
      (if 0 ≤ n - 1 ∧ n - 1 < 6 then
        { state := { st with selected_joint := joint_names.getD (n - 1).toNat "" },
          writes := [], msgs := ["Selected joint"], quit := false }
      else
        { state := st, writes := [],
          msgs := ["Invalid joint number. Use 1-6"], quit := false }) := by
  unfold jointSelect
  rw [hn]

lemma jointSelect_none (arg : String) (st : ConsoleState)
    (hn : parseInt arg = none) :
    jointSelect arg st =
      ⟨st, [], ["Invalid joint number format"], false⟩ := by
  unfold jointSelect
  rw [hn]

lemma stepSet_some (arg : String) (st : ConsoleState) (f : ℚ)
    (hf : parseFloat arg = some f) :
    stepSet arg st =
      (if 0 < f then
        { state := { st with step_size := f },
          writes := [], msgs := ["Step size set to"], quit := false }
      else
        { state := st, writes := [],
          msgs := ["Step size must be positive"], quit := false }) := by
  unfold stepSet
  rw [hf]

lemma stepSet_none (arg : String) (st : ConsoleState)
    (hf : parseFloat arg = none) :
    stepSet arg st = ⟨st, [], ["Invalid step size format"], false⟩ := by
  unfold stepSet
  rw [hf]

end SO100

namespace SO100

/-- C1: for every console state with cached position `P` for the selected
joint and step size `S`, the `+` command issues exactly one adapter write
`("Goal_Position", P + S)` for the selected joint and the `-` command exactly
one write of `("Goal_Position", P - S)`; in the spec's scenario (cache
`{shoulder_pan: 100, others: 0}`, selected `shoulder_pan`, step 300) the `+`
command writes `400` to `shoulder_pan`, and after a simulated read-back of
`395` the cache holds `395` for `shoulder_pan`. -/
theorem plus_minus_write_target (env : Env) (st : ConsoleState) :
    (execCommand env "+" st).writes =
      [⟨"Goal_Position", st.joint_positions st.selected_joint + st.step_size,
        st.selected_joint⟩] ∧
    (execCommand env "-" st).writes =
      [⟨"Goal_Position", st.joint_positions st.selected_joint - st.step_size,
        st.selected_joint⟩] ∧
    (execCommand scenarioEnv "+" scenarioState).writes =
      [⟨"Goal_Position", 400, "shoulder_pan"⟩] ∧
    (execCommand scenarioEnv "+" scenarioState).state.joint_positions
      "shoulder_pan" = 395 := by
  refine ⟨?_, ?_, ?_, ?_⟩
  · rw [execCommand_plus, moveCmd_writes]
    simp
  · rw [execCommand_minus, moveCmd_writes]
    simp
  · simp +decide [execCommand, moveCmd, pyStartsWith, processRead, updatePos,
      scenarioEnv, scenarioState]
    norm_num
  · simp +decide [execCommand, moveCmd, pyStartsWith, processRead, updatePos,
      scenarioEnv, scenarioState]

/-- C3: whenever the write of a `+` or `-` command succeeds and the read-back
returns a numeric scalar (or a size-1 array) `v`, the cache entry of the
selected joint afterwards holds exactly `v`. -/
theorem move_readback_roundtrip (env : Env) (st : ConsoleState) (v : ℚ)
    (hw : env.writeOk = true)
    (hr : env.readRes st.selected_joint = .scalar v ∨
          env.readRes st.selected_joint = .array [v]) :
    (execCommand env "+" st).state.joint_positions st.selected_joint = v ∧
    (execCommand env "-" st).state.joint_positions st.selected_joint = v := by
  have hpr : processRead (env.readRes st.selected_joint) = some v := by
    rcases hr with h | h <;> rw [h] <;> rfl
  constructor
  · rw [execCommand_plus]
    exact moveCmd_readback env true st v hw hpr
  · rw [execCommand_minus]
    exact moveCmd_readback env false st v hw hpr

/-- Witness for C3 at the spec scenario: read-back `395` leaves the cache at
`395` for the selected joint. -/
theorem move_readback_roundtrip_witness :
    (execCommand scenarioEnv "+" scenarioState).state.joint_positions
      "shoulder_pan" = 395 :=
  (move_readback_roundtrip scenarioEnv scenarioState 395 rfl (Or.inl rfl)).1

/-- C10: a `+` or `-` command — whether it succeeds or fails at the write,
the read-back, or result normalisation — can change nothing but the cache
entry of the currently selected joint: step size, selection and all other
cache entries are untouched. -/
theorem move_frame_effect (env : Env) (st : ConsoleState) (cmd : String)
    (h : cmd = "+" ∨ cmd = "-") :
    (execCommand env cmd st).state.step_size = st.step_size ∧
    (execCommand env cmd st).state.selected_joint = st.selected_joint ∧
    ∀ j, j ≠ st.selected_joint →
      (execCommand env cmd st).state.joint_positions j = st.joint_positions j := by
  rcases h with rfl | rfl
  · rw [execCommand_plus]
    obtain ⟨e1, e2, _, e4⟩ := moveCmd_frame env true st
    exact ⟨e2, e1, e4⟩
  · rw [execCommand_minus]
    obtain ⟨e1, e2, _, e4⟩ := moveCmd_frame env false st
    exact ⟨e2, e1, e4⟩

/-- Witness for C10: concrete `+` command leaves the step size at `300`. -/
theorem move_frame_effect_witness :
    (execCommand envDefault "+" stDefault).state.step_size = 300 :=
  (move_frame_effect envDefault stDefault "+" (Or.inl rfl)).1

end SO100

namespace SO100

/-- C5: for every integer `N` with `1 ≤ N ≤ 6`, `j N` selects the Nth joint
of the fixed ordering (1-indexed) and changes nothing else; out-of-range
integers, unparsable arguments and a missing argument each produce an error
message and leave the console state unchanged. -/
theorem j_select_command (env : Env) (st : ConsoleState) (cmd t0 arg : String)
    (rest : List String) (n : Int) (hj : pyStartsWith cmd 'j' = true) :
    (pySplit cmd = t0 :: arg :: rest → parseInt arg = some n → 1 ≤ n → n ≤ 6 →
      execCommand env cmd st =
        ⟨{ st with selected_joint := joint_names.getD (n - 1).toNat "" },
         [], ["Selected joint"], false⟩) ∧
    (pySplit cmd = t0 :: arg :: rest → parseInt arg = some n → (n < 1 ∨ 6 < n) →
      execCommand env cmd st =
        ⟨st, [], ["Invalid joint number. Use 1-6"], false⟩) ∧
    (pySplit cmd = t0 :: arg :: rest → parseInt arg = none →
      execCommand env cmd st =
        ⟨st, [], ["Invalid joint number format"], false⟩) ∧
    (pySplit cmd = [t0] →
      execCommand env cmd st = ⟨st, [], ["Usage: j NUMBER"], false⟩) := by
  refine ⟨?_, ?_, ?_, ?_⟩ <;> intro hsp
  · intro hn hlo hhi
    rw [execCommand_j env cmd st hj, jointCmd_split cmd t0 arg rest st hsp,
        jointSelect_some arg st n hn, if_pos (by omega)]
  · intro hn hrange
    rw [execCommand_j env cmd st hj, jointCmd_split cmd t0 arg rest st hsp,
        jointSelect_some arg st n hn, if_neg (by omega)]
  · intro hn
    rw [execCommand_j env cmd st hj, jointCmd_split cmd t0 arg rest st hsp,
        jointSelect_none arg st hn]
  · rw [execCommand_j env cmd st hj, jointCmd_usage cmd t0 st hsp]

/-- Witness for C5: `j 3` selects the third joint, `elbow_flex`. -/
theorem j_select_command_witness :
    execCommand envDefault "j 3" stDefault =
      ⟨{ stDefault with selected_joint := "elbow_flex" },
       [], ["Selected joint"], false⟩ :=
  (j_select_command envDefault stDefault "j 3" "j" "3" [] 3 (by decide)).1
    (by decide) (by decide) (by decide) (by decide)

/-- C6: for every positive parsed float `F`, `s F` sets the step size to `F`;
non-positive values print "Step size must be positive" and unparsable or
missing arguments print a format/usage message, in each case leaving the
console state unchanged. -/
theorem s_step_command (env : Env) (st : ConsoleState) (cmd t0 arg : String)
    (rest : List String) (f : ℚ) (hs : pyStartsWith cmd 's' = true) :
    (pySplit cmd = t0 :: arg :: rest → parseFloat arg = some f → 0 < f →
      execCommand env cmd st =
        ⟨{ st with step_size := f }, [], ["Step size set to"], false⟩) ∧
    (pySplit cmd = t0 :: arg :: rest → parseFloat arg = some f → f ≤ 0 →
      execCommand env cmd st =
        ⟨st, [], ["Step size must be positive"], false⟩) ∧
    (pySplit cmd = t0 :: arg :: rest → parseFloat arg = none →
      execCommand env cmd st =
        ⟨st, [], ["Invalid step size format"], false⟩) ∧
    (pySplit cmd = [t0] →
      execCommand env cmd st = ⟨st, [], ["Usage: s NUMBER"], false⟩) := by
  refine ⟨?_, ?_, ?_, ?_⟩ <;> intro hsp
  · intro hf hpos
    rw [execCommand_s env cmd st hs, stepCmd_split cmd t0 arg rest st hsp,
        stepSet_some arg st f hf, if_pos hpos]
  · intro hf hle
    rw [execCommand_s env cmd st hs, stepCmd_split cmd t0 arg rest st hsp,
        stepSet_some arg st f hf, if_neg (not_lt.mpr hle)]
  · intro hf
    rw [execCommand_s env cmd st hs, stepCmd_split cmd t0 arg rest st hsp,
        stepSet_none arg st hf]
  · rw [execCommand_s env cmd st hs, stepCmd_usage cmd t0 st hsp]

/-- Witness for C6, the spec's scenario: `s -5` leaves the state unchanged
and prints "Step size must be positive". -/
theorem s_step_command_witness :
    execCommand envDefault "s -5" stDefault =
      ⟨stDefault, [], ["Step size must be positive"], false⟩ :=
  (s_step_command envDefault stDefault "s -5" "s" "-5" [] (-5) (by decide)).2.1
    (by decide) (by decide) (by decide)

/-- C4: every command of the console loop preserves the invariant that the
selected joint is one of the six fixed joint names and the step size is
strictly positive; the mutating commands reject violating input with a
message and leave the state unchanged. -/
theorem console_invariant (env : Env) (cmd : String) (st : ConsoleState)
    (h1 : 0 < st.step_size) (h2 : st.selected_joint ∈ joint_names) :
    (0 < (execCommand env cmd st).state.step_size ∧
     (execCommand env cmd st).state.selected_joint ∈ joint_names) ∧
    (∀ arg g, parseFloat arg = some g → g ≤ 0 →
      stepSet arg st = ⟨st, [], ["Step size must be positive"], false⟩) ∧
    (∀ arg n, parseInt arg = some n → (n < 1 ∨ 6 < n) →
      jointSelect arg st = ⟨st, [], ["Invalid joint number. Use 1-6"], false⟩) := by
  refine ⟨?_, ?_, ?_⟩
  · unfold execCommand
    split_ifs with hq hj hp hm hs hr
    · exact ⟨h1, h2⟩
    · exact jointCmd_inv cmd st h1 h2
    · obtain ⟨e1, e2, _, _⟩ := moveCmd_frame env true st
      rw [e1, e2]
      exact ⟨h1, h2⟩
    · obtain ⟨e1, e2, _, _⟩ := moveCmd_frame env false st
      rw [e1, e2]
      exact ⟨h1, h2⟩
    · exact stepCmd_inv cmd st h1 h2
    · exact ⟨h1, h2⟩
    · exact ⟨h1, h2⟩
  · intro arg g hg hle
    rw [stepSet_some arg st g hg, if_neg (not_lt.mpr hle)]
  · intro arg n hn hrange
    rw [jointSelect_some arg st n hn, if_neg (by omega)]

/-- Witness for C4: after an `r` command from the initial-style state the
step size is still positive and the selection is still a joint name. -/
theorem console_invariant_witness :
    0 < (execCommand envDefault "r" stDefault).state.step_size ∧
    (execCommand envDefault "r" stDefault).state.selected_joint ∈ joint_names :=
  (console_invariant envDefault "r" stDefault (by decide) (by decide)).1

end SO100

namespace SO100

/-- Counterexample to C2 as stated: in the scenario state (cache holds `100`
for `shoulder_pan`) with the `shoulder_pan` read failing, the `r` command
leaves that cache entry at `100` — it is not reset to `0.0` as the claim
requires. -/
theorem r_failed_read_counterexample :
    (execCommand envPanFails "r" scenarioState).state.joint_positions
      "shoulder_pan" = 100 ∧
    ¬ (execCommand envPanFails "r" scenarioState).state.joint_positions
      "shoulder_pan" = 0 := by
  constructor
  · simp +decide [execCommand, readAllCmd, readLoop, joint_names, pyStartsWith,
      processRead, updatePos, envPanFails, scenarioState]
  · simp +decide [execCommand, readAllCmd, readLoop, joint_names, pyStartsWith,
      processRead, updatePos, envPanFails, scenarioState]

/-- C2 (amended): during the `r` command a failed per-joint read leaves that
joint's cache entry unchanged (the startup loop, not the `r` loop, resets to
`0.0`); every joint whose read succeeds is processed and updated, no
exception escapes the command boundary, the loop continues, and selection
and step size are untouched. -/
theorem r_failed_read_leaves_cache (env : Env) (st : ConsoleState) (j : String)
    (hj : j ∈ joint_names) (hfail : processRead (env.readRes j) = none) :
    (execCommand env "r" st).state.joint_positions j = st.joint_positions j ∧
    (∀ j' v, j' ∈ joint_names → processRead (env.readRes j') = some v →
      (execCommand env "r" st).state.joint_positions j' = v) ∧
    (execCommand env "r" st).quit = false ∧
    (execCommand env "r" st).state.selected_joint = st.selected_joint ∧
    (execCommand env "r" st).state.step_size = st.step_size := by
  rw [execCommand_readAll]
  refine ⟨?_, ?_, rfl, rfl, rfl⟩
  · show (readLoop env joint_names st.joint_positions).1 j = st.joint_positions j
    rw [readLoop_pos_mem env joint_names st.joint_positions j hj joint_names_nodup,
        hfail]
  · intro j' v hj' hv
    show (readLoop env joint_names st.joint_positions).1 j' = v
    rw [readLoop_pos_mem env joint_names st.joint_positions j' hj' joint_names_nodup,
        hv]

/-- Witness for the amended C2: the failing `shoulder_pan` read leaves the
cached `100` in place. -/
theorem r_failed_read_leaves_cache_witness :
    (execCommand envPanFails "r" scenarioState).state.joint_positions
      "shoulder_pan" = scenarioState.joint_positions "shoulder_pan" :=
  (r_failed_read_leaves_cache envPanFails scenarioState "shoulder_pan"
    (by decide) (by decide)).1

/-- C7: the startup loop attempts one read per joint, in the fixed order; a
joint whose read fails is logged and defaults to `0.0`, a joint whose read
succeeds holds the read value — and the loop never aborts, every joint being
processed. -/
theorem startup_read_loop (env : Env) (j : String) (hj : j ∈ joint_names) :
    (startupRead env).2.2 = joint_names ∧
    (processRead (env.readRes j) = none → (startupRead env).1 j = 0) ∧
    (∀ v, processRead (env.readRes j) = some v → (startupRead env).1 j = v) := by
  refine ⟨startupLoop_trace env joint_names _, ?_, ?_⟩
  · intro hfail
    show (startupLoop env joint_names (fun _ => 0)).1 j = 0
    rw [startupLoop_pos_mem env joint_names _ j hj joint_names_nodup, hfail]
  · intro v hv
    show (startupLoop env joint_names (fun _ => 0)).1 j = v
    rw [startupLoop_pos_mem env joint_names _ j hj joint_names_nodup, hv]

/-- Witness for C7: with every read failing, `wrist_roll` is seeded to `0`. -/
theorem startup_read_loop_witness :
    (startupRead envAllFail).1 "wrist_roll" = 0 :=
  (startup_read_loop envAllFail "wrist_roll" (by decide)).2.1 (by decide)

/-- Counterexample to C8 as stated: the input `jelly` is none of the defined
commands, yet the console answers with "Usage: j NUMBER" — not with the
unknown-command message — because dispatch tests only the first letter. -/
theorem unknown_command_counterexample :
    (execCommand envDefault "jelly" stDefault).msgs = ["Usage: j NUMBER"] ∧
    ¬ (execCommand envDefault "jelly" stDefault).msgs = ["Unknown command"] := by
  constructor
  · simp +decide [execCommand, jointCmd, jointSelect, pyStartsWith, pySplit,
      pySplitAux, parseInt, allDigits, envDefault, stDefault]
  · simp +decide [execCommand, jointCmd, jointSelect, pyStartsWith, pySplit,
      pySplitAux, parseInt, allDigits, envDefault, stDefault]

/-- C8 (amended): every input line that is not `q`, `+`, `-` or `r` and does
not begin with the letter `j` or `s` gets the "Unknown command" message with
the state unchanged; lines beginning with `j` or `s` that are not valid
commands instead get a usage/format message (also leaving the state
unchanged, as the per-branch theorems show). -/
theorem unknown_command_reply (env : Env) (st : ConsoleState) (cmd : String)
    (hq : cmd ≠ "q") (hj : pyStartsWith cmd 'j' = false)
    (hp : cmd ≠ "+") (hm : cmd ≠ "-")
    (hs : pyStartsWith cmd 's' = false) (hr : cmd ≠ "r") :
    execCommand env cmd st = ⟨st, [], ["Unknown command"], false⟩ := by
  unfold execCommand
  rw [if_neg hq, if_neg (by simp [hj]), if_neg hp, if_neg hm,
      if_neg (by simp [hs]), if_neg hr]

/-- Witness for the amended C8: `hello` gets the unknown-command reply. -/
theorem unknown_command_reply_witness :
    execCommand envDefault "hello" stDefault =
      ⟨stDefault, [], ["Unknown command"], false⟩ :=
  unknown_command_reply envDefault stDefault "hello" (by decide) (by decide)
    (by decide) (by decide) (by decide) (by decide)

/-- C9: on every way out of the command loop — quit, operator interrupt, or
an unhandled exception — the `finally` block disconnects exactly once when
the adapter is connected and not at all when it is not, independently of the
exit path, and afterwards the adapter is disconnected. -/
theorem shutdown_on_every_exit (r : RobotConn) (e : LoopExit) :
    (programShutdown r e).2 = (if r.is_connected then 1 else 0) ∧
    (programShutdown r e).1.is_connected = false ∧
    programShutdown r e = programShutdown r LoopExit.quit := by
  cases r with
  | mk c => cases c <;> simp [programShutdown, finallyBlock]

end SO100
